import Mathlib

/-!
Verification of the dfx-json-inspector repository (src/src/main.rs).

The program parses a `dfx.json` manifest into a generic JSON value
(serde_json::Value), extracts the top-level "canisters" object, and tallies
each entry by its "type" string, defaulting to "unknown".

Shallow embedding: `Json` mirrors `serde_json::Value`; objects are
association lists of string keys.  The Rust `HashMap<String, u32>` tally is
modelled as an association list updated by `tallyIncr`, which reproduces
`*type_count.entry(k).or_insert(0) += 1` (increment the existing bucket,
otherwise insert the bucket with count 1).  File reading and the serde_json
text parser are external library calls; `read_dfx_json` therefore takes them
as function parameters.
-/

namespace DfxInspector

/-- The generic JSON value, mirroring `serde_json::Value`.  An object is an
association list (serde keeps keys unique; no claim depends on key order).
The numeric payload is irrelevant to every claim and is kept as `Int`. -/
inductive Json where
  | null : Json
  | bool : Bool → Json
  | num : Int → Json
  | str : String → Json
  | arr : List Json → Json
  | obj : List (String × Json) → Json

/-- serde_json's `Index<&str>` on `Value` (`json["canisters"]`,
`canister["type"]`): on an object, the value at the key, else `Null`;
on any non-object value, `Null` (it never panics). -/
def getIndex (j : Json) (key : String) : Json :=
  match j with
  | Json.obj fields =>
      match fields.lookup key with
      | some v => v
      | none => Json.null
  | _ => Json.null

/-- serde_json's `Value::as_object`: `Some` exactly on objects. -/
def asObject : Json → Option (List (String × Json))
  | Json.obj fields => some fields
  | _ => none

/-- serde_json's `Value::as_str`: `Some` exactly on strings. -/
def asStr : Json → Option String
  | Json.str s => some s
  | _ => none

/-- The per-entry label computed at src/src/main.rs:143:
`canister["type"].as_str().unwrap_or("unknown")`. -/
def canisterType (canister : Json) : String :=
  (asStr (getIndex canister "type")).getD "unknown"

/-- The bucket counts live in a `HashMap<String, u32>`; a `u32` increment
wraps at this modulus (release build; a debug build would panic instead). -/
def u32size : Nat := 4294967296

/-- `*type_count.entry(k).or_insert(0) += 1` on the tally map: increment the
bucket for `k` modulo the `u32` width if present, otherwise append the bucket
`(k, 1)` (incrementing the inserted 0 never wraps). -/
def tallyIncr : List (String × Nat) → String → List (String × Nat)
  | [], k => [(k, 1)]
  | (k', v) :: rest, k =>
      if k' = k then (k', (v + 1) % u32size) :: rest
      else (k', v) :: tallyIncr rest k

/-- `HashMap::get` as a count: the bucket value for `k`, or 0 if absent. -/
def tallyGet : List (String × Nat) → String → Nat
  | [], _ => 0
  | (k', v) :: rest, k => if k' = k then v else tallyGet rest k

/-- Sum of all bucket counts of a tally. -/
def tallySum (t : List (String × Nat)) : Nat :=
  (t.map Prod.snd).sum

/-- The bucket labels of a tally (`HashMap` keys). -/
def tallyKeys (t : List (String × Nat)) : List String :=
  t.map Prod.fst

/-- Translation of `analyze_canisters` (src/src/main.rs:136-148): extract
`json["canisters"]` as an object (error "No 'canisters' field found in
dfx.json" otherwise, via anyhow's context), then fold over the entries,
bumping the bucket of each entry's type label, and return the pair of the
entry count and the tally. -/
def analyze_canisters (json : Json) :
    Except String (Nat × List (String × Nat)) :=
  match asObject (getIndex json "canisters") with
  | none => Except.error "No 'canisters' field found in dfx.json"
  | some canisters =>
      Except.ok (canisters.length,
        canisters.foldl
          (fun type_count c =>
            tallyIncr type_count ((asStr (getIndex c.2 "type")).getD "unknown"))
          [])

/-- Translation of `read_dfx_json` (src/src/main.rs:82-88).  `fs::read_to_string`
and `serde_json::from_str` are external library calls, passed in as
functions (`none` = the read fails / the text is not well-formed JSON);
their failures are wrapped in the two context messages of the source. -/
def read_dfx_json (readFile : String → Option String)
    (from_str : String → Option Json) (path : String) : Except String Json :=
  match readFile (path ++ "/dfx.json") with
  | none => Except.error
      ("Could not read dfx.json from \"" ++ path ++ "/dfx.json\"")
  | some content =>
      match from_str content with
      | none => Except.error "Failed to parse dfx.json"
      | some v => Except.ok v

/-- Translation of the canister-counting logic inlined in `main`
(src/src/main.rs:51-61): the same extraction of `json["canisters"]`, then one
loop that records the printed `(name, type)` line for each entry and bumps
the tally bucket, followed by the printed total `canisters.len()`. -/
def mainCompute (json : Json) :
    Except String (List (String × String) × Nat × List (String × Nat)) :=
  match asObject (getIndex json "canisters") with
  | none => Except.error "No 'canisters' field found in dfx.json"
  | some canisters =>
      let r := canisters.foldl
        (fun (acc : List (String × String) × List (String × Nat)) c =>
          let canister_type := (asStr (getIndex c.2 "type")).getD "unknown"
          (acc.1 ++ [(c.1, canister_type)], tallyIncr acc.2 canister_type))
        ([], [])
      Except.ok (r.1, canisters.length, r.2)

/-- The canister entries of the doc-test manifest at src/src/main.rs:108-127,
also the spec's concrete scenario (§8). -/
def csThree : List (String × Json) :=
  [ ("web3disk", Json.obj
      [("type", Json.str "custom"), ("candid", Json.str "x.did")]),
    ("web3disk_service_backend", Json.obj
      [("type", Json.str "motoko"), ("main", Json.str "main.mo")]),
    ("internet-identity", Json.obj
      [("type", Json.str "pull"),
       ("id", Json.str "rdmx6-jaaaa-aaaaa-aaadq-cai")]) ]

/-- The concrete manifest of the doc-test at src/src/main.rs:108-127 and of
the spec's concrete scenario (§8). -/
def docThree : Json :=
  Json.obj [("canisters", Json.obj csThree)]

/-- The concrete manifest `{"canisters": {"foo": {}}}` of the spec's second
concrete scenario (§8). -/
def docFoo : Json :=
  Json.obj [("canisters", Json.obj [("foo", Json.obj [])])]

/-- A manifest whose `canisters` field is an empty object. -/
def docEmpty : Json :=
  Json.obj [("canisters", Json.obj [])]

/-- A manifest whose `canisters` field is an array, not an object. -/
def docArr : Json :=
  Json.obj [("canisters", Json.arr [Json.str "web3disk"])]

/-- The canister entries of a manifest whose definitions are not objects. -/
def csMixed : List (String × Json) :=
  [("a", Json.str "motoko"), ("b", Json.arr []), ("c", Json.null)]

/-- A manifest whose canister definitions are a string, an array and null. -/
def docMixed : Json :=
  Json.obj [("canisters", Json.obj csMixed)]

/-- 2^32 canister entries with distinct names and no type field: every entry
is labelled "unknown", so the single u32 bucket wraps around to 0. -/
def bigEntries : List (String × Json) :=
  (List.range u32size).map fun i => (toString i, Json.obj [])

/-- A manifest whose canisters object holds 2^32 entries of one label. -/
def docBig : Json :=
  Json.obj [("canisters", Json.obj bigEntries)]

/-!  Helper lemmas about the tally update. -/

/-- Incrementing bucket `k` bumps `tallyGet` at `k` by one modulo the u32
width and leaves every other bucket value unchanged. -/
theorem tallyGet_tallyIncr (t : List (String × Nat)) (k k' : String) :
    tallyGet (tallyIncr t k) k' =
      if k' = k then (tallyGet t k' + 1) % u32size else tallyGet t k' := by
  induction t with
  | nil =>
      by_cases h : k' = k
      · subst h; norm_num [tallyIncr, tallyGet, u32size]
      · have h2 : ¬ k = k' := fun hh => h hh.symm
        simp [tallyIncr, tallyGet, h, h2]
  | cons p rest ih =>
      obtain ⟨a, v⟩ := p
      by_cases hak : a = k
      · subst hak
        by_cases h : a = k'
        · subst h; simp [tallyIncr, tallyGet]
        · have h2 : ¬ k' = a := fun hh => h hh.symm
          simp [tallyIncr, tallyGet, h, h2]
      · by_cases h : a = k'
        · subst h
          have h2 : ¬ a = k := hak
          simp [tallyIncr, tallyGet, h2, fun hh => h2 hh]
        · simp [tallyIncr, tallyGet, hak, h, ih]

/-- Every bucket value strictly below the u32 width stays so under lookup. -/
theorem tallyGet_lt (t : List (String × Nat)) (k : String)
    (hb : ∀ p ∈ t, p.2 < u32size) : tallyGet t k < u32size := by
  induction t with
  | nil => norm_num [tallyGet, u32size]
  | cons p rest ih =>
      obtain ⟨a, v⟩ := p
      by_cases h : a = k
      · simpa [tallyGet, h] using hb (a, v) (by simp)
      · simp only [tallyGet, if_neg h]
        exact ih fun q hq => hb q (List.mem_cons_of_mem _ hq)

/-- The increment keeps every bucket value strictly below the u32 width. -/
theorem tallyIncr_bounded (t : List (String × Nat)) (k : String)
    (hb : ∀ p ∈ t, p.2 < u32size) :
    ∀ p ∈ tallyIncr t k, p.2 < u32size := by
  induction t with
  | nil =>
      intro p hp
      simp only [tallyIncr, List.mem_singleton] at hp
      subst hp
      norm_num [u32size]
  | cons q rest ih =>
      obtain ⟨a, v⟩ := q
      intro p hp
      by_cases h : a = k
      · subst h
        simp only [tallyIncr, eq_self_iff_true, if_true, List.mem_cons] at hp
        rcases hp with hp | hp
        · subst hp
          exact Nat.mod_lt _ (by norm_num [u32size])
        · exact hb p (List.mem_cons_of_mem _ hp)
      · simp only [tallyIncr, if_neg h, List.mem_cons] at hp
        rcases hp with hp | hp
        · subst hp
          exact hb (a, v) (by simp)
        · exact ih (fun q hq => hb q (List.mem_cons_of_mem _ hq)) p hp

/-- The increment raises each bucket value bound by at most one. -/
theorem tallyIncr_le (t : List (String × Nat)) (k : String) (n : Nat)
    (hb : ∀ p ∈ t, p.2 ≤ n) : ∀ p ∈ tallyIncr t k, p.2 ≤ n + 1 := by
  induction t with
  | nil =>
      intro p hp
      simp only [tallyIncr, List.mem_singleton] at hp
      subst hp
      omega
  | cons q rest ih =>
      obtain ⟨a, v⟩ := q
      intro p hp
      by_cases h : a = k
      · subst h
        simp only [tallyIncr, eq_self_iff_true, if_true, List.mem_cons] at hp
        rcases hp with hp | hp
        · subst hp
          have hv : v ≤ n := hb (a, v) (by simp)
          have := Nat.mod_le (v + 1) u32size
          simpa using by omega
        · exact le_trans (hb p (List.mem_cons_of_mem _ hp)) (by omega)
      · simp only [tallyIncr, if_neg h, List.mem_cons] at hp
        rcases hp with hp | hp
        · subst hp
          exact le_trans (hb (a, v) (by simp)) (by omega)
        · exact ih (fun q hq => hb q (List.mem_cons_of_mem _ hq)) p hp

/-- Incrementing a bucket raises the total bucket sum by one modulo the u32
width (the sum itself taken over the wrapped bucket values). -/
theorem tallySum_tallyIncr_mod (t : List (String × Nat)) (k : String) :
    Nat.ModEq u32size (tallySum (tallyIncr t k)) (tallySum t + 1) := by
  induction t with
  | nil => exact Nat.ModEq.refl 1
  | cons p rest ih =>
      obtain ⟨a, v⟩ := p
      by_cases h : a = k
      · subst h
        simp only [tallyIncr, eq_self_iff_true, if_true, tallySum,
          List.map_cons, List.sum_cons]
        have h1 := ((Nat.mod_modEq (v + 1) u32size).add_right
          ((rest.map Prod.snd).sum))
        refine h1.trans ?_
        have : v + 1 + (rest.map Prod.snd).sum
            = v + (rest.map Prod.snd).sum + 1 := by omega
        rw [this]
      · simp only [tallyIncr, if_neg h, tallySum, List.map_cons,
        List.sum_cons]
        have h1 := (Nat.ModEq.add_left v ih)
        refine h1.trans ?_
        have : v + (tallySum rest + 1) = v + tallySum rest + 1 := by omega
        rw [this]
        exact Nat.ModEq.refl _

/-- When every current bucket value is at most `n` and `n + 1` is below the
u32 width, the increment is exact: the bucket sum rises by exactly one. -/
theorem tallySum_tallyIncr_exact (t : List (String × Nat)) (k : String)
    (n : Nat) (hb : ∀ p ∈ t, p.2 ≤ n) (hlt : n + 1 < u32size) :
    tallySum (tallyIncr t k) = tallySum t + 1 := by
  induction t with
  | nil => simp [tallyIncr, tallySum]
  | cons p rest ih =>
      obtain ⟨a, v⟩ := p
      by_cases h : a = k
      · subst h
        have hv : v ≤ n := hb (a, v) (by simp)
        have hmod : (v + 1) % u32size = v + 1 := Nat.mod_eq_of_lt (by omega)
        simp only [tallyIncr, eq_self_iff_true, if_true, tallySum,
          List.map_cons, List.sum_cons, hmod]
        omega
      · have := ih fun q hq => hb q (List.mem_cons_of_mem _ hq)
        simp only [tallyIncr, if_neg h, tallySum, List.map_cons,
          List.sum_cons] at this ⊢
        omega

/-- Incrementing bucket `k` keeps the key list if `k` is already a key and
appends `k` otherwise. -/
theorem tallyKeys_tallyIncr (t : List (String × Nat)) (k : String) :
    tallyKeys (tallyIncr t k) =
      if k ∈ tallyKeys t then tallyKeys t else tallyKeys t ++ [k] := by
  induction t with
  | nil => simp [tallyIncr, tallyKeys]
  | cons p rest ih =>
      obtain ⟨a, v⟩ := p
      by_cases h : a = k
      · subst h; simp [tallyIncr, tallyKeys]
      · have h2 : ¬ k = a := fun hh => h hh.symm
        have hstep : tallyIncr ((a, v) :: rest) k = (a, v) :: tallyIncr rest k := by
          simp [tallyIncr, h]
        rw [hstep]
        have hkeys : tallyKeys ((a, v) :: tallyIncr rest k) =
            a :: tallyKeys (tallyIncr rest k) := rfl
        have hkeys2 : tallyKeys ((a, v) :: rest) = a :: tallyKeys rest := rfl
        rw [hkeys, hkeys2, ih]
        by_cases hm : k ∈ tallyKeys rest
        · rw [if_pos hm, if_pos (List.mem_cons_of_mem a hm)]
        · rw [if_neg hm, if_neg (by simp [List.mem_cons, h2, hm])]
          simp

/-- The tally never acquires a duplicate bucket key. -/
theorem tallyKeys_nodup_tallyIncr (t : List (String × Nat)) (k : String)
    (h : (tallyKeys t).Nodup) : (tallyKeys (tallyIncr t k)).Nodup := by
  rw [tallyKeys_tallyIncr]
  by_cases hm : k ∈ tallyKeys t
  · simpa [hm] using h
  · simp [hm, List.nodup_append, h]

/-!  Folding a list of labels into the tally, as the analysis loop does. -/

/-- The bucket sum after folding labels grows by the number of labels,
modulo the u32 width. -/
theorem tallySum_foldl_mod (ls : List String) (t : List (String × Nat)) :
    Nat.ModEq u32size (tallySum (ls.foldl tallyIncr t))
      (tallySum t + ls.length) := by
  induction ls generalizing t with
  | nil =>
      simp only [List.foldl_nil, List.length_nil, Nat.add_zero]
      exact Nat.ModEq.refl _
  | cons a ls ih =>
      rw [List.foldl_cons]
      refine (ih (tallyIncr t a)).trans ?_
      refine ((tallySum_tallyIncr_mod t a).add_right ls.length).trans ?_
      have heq : tallySum t + 1 + ls.length = tallySum t + (a :: ls).length := by
        rw [List.length_cons]
        omega
      rw [heq]

/-- When no bucket can reach the u32 width, the fold is exact: the bucket
sum grows by exactly the number of labels folded in. -/
theorem tallySum_foldl_exact (ls : List String) (t : List (String × Nat))
    (n : Nat) (hb : ∀ p ∈ t, p.2 ≤ n) (hlt : n + ls.length < u32size) :
    tallySum (ls.foldl tallyIncr t) = tallySum t + ls.length := by
  induction ls generalizing t n with
  | nil => simp
  | cons a ls ih =>
      have hlen : (a :: ls).length = ls.length + 1 := List.length_cons a ls
      have hstep := tallySum_tallyIncr_exact t a n hb
        (by rw [hlen] at hlt; omega)
      have hb2 := tallyIncr_le t a n hb
      have hrec := ih (tallyIncr t a) (n + 1) hb2 (by rw [hlen] at hlt; omega)
      rw [List.foldl_cons, hrec, hstep, hlen]
      omega

/-- After folding labels into a tally of u32-bounded buckets, each bucket
holds its old value plus the occurrences of its key, modulo the u32 width. -/
theorem tallyGet_foldl (ls : List String) (t : List (String × Nat))
    (k : String) (hb : ∀ p ∈ t, p.2 < u32size) :
    tallyGet (ls.foldl tallyIncr t) k
      = (tallyGet t k + ls.count k) % u32size := by
  induction ls generalizing t with
  | nil =>
      simp [Nat.mod_eq_of_lt (tallyGet_lt t k hb)]
  | cons a ls ih =>
      have hb2 := tallyIncr_bounded t a hb
      rw [List.foldl_cons, ih (tallyIncr t a) hb2, tallyGet_tallyIncr]
      by_cases h : k = a
      · subst h
        rw [List.count_cons_self, if_pos rfl]
        have h1 : ((tallyGet t k + 1) % u32size + ls.count k) % u32size
            = (tallyGet t k + 1 + ls.count k) % u32size :=
          (Nat.mod_modEq (tallyGet t k + 1) u32size).add_right (ls.count k)
        rw [h1]
        congr 1
        omega
      · rw [List.count_cons_of_ne h, if_neg h]

/-- The bucket keys after folding labels are, as a finite set, the old keys
together with the labels. -/
theorem tallyKeys_toFinset_foldl (ls : List String) (t : List (String × Nat)) :
    (tallyKeys (ls.foldl tallyIncr t)).toFinset =
      (tallyKeys t).toFinset ∪ ls.toFinset := by
  induction ls generalizing t with
  | nil => simp
  | cons a ls ih =>
      rw [List.foldl_cons, ih, tallyKeys_tallyIncr]
      split_ifs with hm
      · ext x
        simp only [List.toFinset_cons, Finset.mem_union, Finset.mem_insert,
          List.mem_toFinset]
        constructor
        · rintro (hx | hx)
          · exact Or.inl hx
          · exact Or.inr (Or.inr hx)
        · rintro (hx | hx | hx)
          · exact Or.inl hx
          · exact Or.inl (hx ▸ hm)
          · exact Or.inr hx
      · ext x
        simp only [List.toFinset_append, List.toFinset_cons, Finset.mem_union,
          Finset.mem_insert, List.mem_toFinset, List.toFinset_nil,
          List.mem_singleton, List.mem_cons]
        tauto

/-- Folding labels preserves distinctness of the bucket keys. -/
theorem tallyKeys_nodup_foldl (ls : List String) (t : List (String × Nat))
    (h : (tallyKeys t).Nodup) : (tallyKeys (ls.foldl tallyIncr t)).Nodup := by
  induction ls generalizing t with
  | nil => exact h
  | cons a ls ih => exact ih _ (tallyKeys_nodup_tallyIncr _ _ h)

/-- Starting from the empty tally, the number of buckets equals the number
of distinct labels folded in. -/
theorem tally_length_foldl (ls : List String) :
    (ls.foldl tallyIncr []).length = ls.toFinset.card := by
  have hnd := tallyKeys_nodup_foldl ls [] (by simp [tallyKeys])
  have hfin := tallyKeys_toFinset_foldl ls []
  have hlen : (tallyKeys (ls.foldl tallyIncr [])).length =
      (ls.foldl tallyIncr []).length := by
    simp [tallyKeys]
  rw [← hlen, ← List.toFinset_card_of_nodup hnd, hfin]
  simp [tallyKeys]

/-- A list has as many distinct elements as elements exactly when it has no
duplicate. -/
theorem toFinset_card_eq_length_iff (l : List String) :
    l.toFinset.card = l.length ↔ l.Nodup := by
  constructor
  · intro h
    rw [List.card_toFinset] at h
    have hded := List.Sublist.eq_of_length (List.dedup_sublist l) h
    rw [← hded]
    exact l.nodup_dedup
  · intro h
    exact List.toFinset_card_of_nodup h

/-- `as_object` answers `Some fields` exactly on the object value. -/
theorem asObject_eq_some (v : Json) (fields : List (String × Json)) :
    asObject v = some fields ↔ v = Json.obj fields := by
  cases v <;> simp [asObject]

/-- Closed form of the analysis on a present `canisters` object: the total is
the entry count and the tally is the fold of the per-entry labels. -/
theorem analyze_canisters_eq (j : Json) (cs : List (String × Json))
    (h : asObject (getIndex j "canisters") = some cs) :
    analyze_canisters j =
      Except.ok (cs.length,
        (cs.map fun c => canisterType c.2).foldl tallyIncr []) := by
  simp only [analyze_canisters, h]
  rw [List.foldl_map]
  rfl

/-- Closed form of the fold inside `mainCompute`: it appends the `(name,
label)` line of each entry and folds the labels into the tally exactly as the
analysis fold does. -/
theorem mainCompute_foldl (cs : List (String × Json))
    (ps : List (String × String)) (t : List (String × Nat)) :
    cs.foldl
      (fun (acc : List (String × String) × List (String × Nat)) c =>
        let canister_type := (asStr (getIndex c.2 "type")).getD "unknown"
        (acc.1 ++ [(c.1, canister_type)], tallyIncr acc.2 canister_type))
      (ps, t) =
    (ps ++ cs.map fun c => (c.1, canisterType c.2),
     cs.foldl (fun tc c => tallyIncr tc (canisterType c.2)) t) := by
  induction cs generalizing ps t with
  | nil => simp
  | cons c cs ih =>
      simp only [List.foldl_cons, List.map_cons]
      rw [ih]
      simp [canisterType, List.append_assoc]

/-- Folding `n` copies of one label onto its singleton bucket adds `n` to the
bucket, modulo the u32 width. -/
theorem foldl_replicate_single (n : Nat) (k : String) (m : Nat)
    (hm : m < u32size) :
    (List.replicate n k).foldl tallyIncr [(k, m)] =
      [(k, (m + n) % u32size)] := by
  induction n generalizing m with
  | zero => simp [Nat.mod_eq_of_lt hm]
  | succ n ih =>
      rw [List.replicate_succ, List.foldl_cons]
      have hstep : tallyIncr [(k, m)] k = [(k, (m + 1) % u32size)] := by
        simp [tallyIncr]
      rw [hstep, ih ((m + 1) % u32size)
        (Nat.mod_lt _ (by norm_num [u32size]))]
      have h1 : ((m + 1) % u32size + n) % u32size
          = (m + (n + 1)) % u32size := by
        refine Eq.trans ((Nat.mod_modEq (m + 1) u32size).add_right n) ?_
        congr 1
        omega
      rw [h1]

/-- Folding a positive number of copies of one label from the empty tally
yields the single bucket holding that number modulo the u32 width. -/
theorem foldl_replicate (n : Nat) (k : String) (hn : 0 < n) :
    (List.replicate n k).foldl tallyIncr [] = [(k, n % u32size)] := by
  cases n with
  | zero => omega
  | succ n =>
      rw [List.replicate_succ, List.foldl_cons]
      have hstep : tallyIncr [] k = [(k, 1)] := rfl
      rw [hstep, foldl_replicate_single n k 1 (by norm_num [u32size])]
      have h1 : 1 + n = n + 1 := by omega
      rw [h1]

/-- The 2^32-entry manifest has 2^32 entries. -/
theorem bigEntries_length : bigEntries.length = u32size := by
  simp [bigEntries]

/-- Every entry of the 2^32-entry manifest is labelled "unknown". -/
theorem bigEntries_labels :
    (bigEntries.map fun c => canisterType c.2)
      = List.replicate u32size "unknown" := by
  rw [List.eq_replicate_iff]
  refine ⟨by simp [bigEntries], ?_⟩
  intro b hb
  simp only [bigEntries, List.map_map, List.mem_map] at hb
  obtain ⟨i, hi, hbe⟩ := hb
  rw [← hbe]
  rfl

/-- On the 2^32-entry manifest the single "unknown" bucket wraps to 0 while
the total is 2^32. -/
theorem analyze_docBig :
    analyze_canisters docBig = Except.ok (u32size, [("unknown", 0)]) := by
  have hobj : asObject (getIndex docBig "canisters") = some bigEntries := rfl
  rw [analyze_canisters_eq docBig bigEntries hobj, bigEntries_labels,
    bigEntries_length, foldl_replicate u32size "unknown"
      (by norm_num [u32size]), Nat.mod_self]

end DfxInspector

namespace DfxInspector

/-- Counterexample to claim C1 as stated: on the manifest whose canisters
object holds 2^32 entries of one label, the u32 bucket wraps to 0, so the
bucket values sum to 0 while the returned total is 2^32. -/
theorem C1_counterexample :
    analyze_canisters docBig = Except.ok (u32size, [("unknown", 0)])
    ∧ tallySum [("unknown", 0)] ≠ u32size := by
  refine ⟨analyze_docBig, ?_⟩
  norm_num [tallySum, u32size]

/-- Claim C1, amended for the u32 bucket width: for every parsed document
whose canisters field is an object, the sum of the tally bucket values is
congruent to the number of entries (the returned total) modulo 2^32, and
equals the total outright whenever the total is below 2^32. -/
theorem C1_tally_sums_to_total_mod (j : Json) (total : Nat)
    (tally : List (String × Nat))
    (h : analyze_canisters j = Except.ok (total, tally)) :
    tallySum tally % u32size = total % u32size
    ∧ (total < u32size → tallySum tally = total) := by
  cases hobj : asObject (getIndex j "canisters") with
  | none => simp [analyze_canisters, hobj] at h
  | some cs =>
      have he := analyze_canisters_eq j cs hobj
      rw [h] at he
      injection he with he2
      injection he2 with ht hT
      subst ht
      subst hT
      constructor
      · have h1 := tallySum_foldl_mod (cs.map fun c => canisterType c.2) []
        have h2 : tallySum ((cs.map fun c => canisterType c.2).foldl
              tallyIncr []) % u32size
            = (tallySum [] + (cs.map fun c => canisterType c.2).length)
              % u32size := h1
        rw [h2]
        simp [tallySum]
      · intro hlt
        have h3 := tallySum_foldl_exact (cs.map fun c => canisterType c.2)
          [] 0 (by simp) (by simp [List.length_map]; omega)
        rw [h3]
        simp [tallySum]

/-- Witness for the amended C1 at the doc-test manifest. -/
theorem C1_witness :
    tallySum [("custom", 1), ("motoko", 1), ("pull", 1)] % u32size
      = 3 % u32size
    ∧ (3 < u32size →
        tallySum [("custom", 1), ("motoko", 1), ("pull", 1)] = 3) :=
  C1_tally_sums_to_total_mod docThree 3
    [("custom", 1), ("motoko", 1), ("pull", 1)] rfl

/-- Counterexample to claim C2 as stated: on the manifest whose canisters
object holds 2^32 entries labelled "unknown", the "unknown" bucket holds 0,
not the 2^32 occurrences of the label, because the u32 increment wraps. -/
theorem C2_counterexample :
    analyze_canisters docBig = Except.ok (u32size, [("unknown", 0)])
    ∧ tallyGet [("unknown", 0)] "unknown" = 0
    ∧ (bigEntries.map fun c => canisterType c.2).count "unknown" = u32size
    ∧ (0 : Nat) ≠ u32size := by
  refine ⟨analyze_docBig, rfl, ?_, by norm_num [u32size]⟩
  rw [bigEntries_labels]
  simp [List.count_replicate_self]

/-- Claim C2, amended for the u32 bucket width: each entry of the canisters
object bumps exactly one tally bucket by one unit modulo 2^32: the bucket in
the returned tally holds the number of entries labelled with its key reduced
modulo 2^32, the label is the entry's type field when that field is a
string, and the label is "unknown" when the type field is absent, null or
not a string (the index of a missing field is null). -/
theorem C2_one_bucket_per_entry_mod (j : Json) (cs : List (String × Json))
    (total : Nat) (tally : List (String × Nat))
    (hc : getIndex j "canisters" = Json.obj cs)
    (h : analyze_canisters j = Except.ok (total, tally)) :
    (∀ lbl : String,
        tallyGet tally lbl =
          ((cs.map fun c => canisterType c.2).count lbl) % u32size)
    ∧ (∀ c : Json, ∀ s : String,
        getIndex c "type" = Json.str s → canisterType c = s)
    ∧ (∀ c : Json, (∀ s : String, getIndex c "type" ≠ Json.str s) →
        canisterType c = "unknown") := by
  have hobj : asObject (getIndex j "canisters") = some cs := by
    rw [hc]; rfl
  have he := analyze_canisters_eq j cs hobj
  rw [h] at he
  injection he with he2
  injection he2 with ht hT
  subst hT
  refine ⟨?_, ?_, ?_⟩
  · intro lbl
    rw [tallyGet_foldl _ _ _ (by simp)]
    simp [tallyGet]
  · intro c s hs
    simp [canisterType, hs, asStr]
  · intro c hs
    cases hv : getIndex c "type"
    case str s => exact absurd hv (hs s)
    all_goals simp [canisterType, hv, asStr]

/-- Witness for the amended C2 at the doc-test manifest. -/
theorem C2_witness :
    (∀ lbl : String,
        tallyGet [("custom", 1), ("motoko", 1), ("pull", 1)] lbl =
          ((csThree.map fun c => canisterType c.2).count lbl) % u32size)
    ∧ (∀ c : Json, ∀ s : String,
        getIndex c "type" = Json.str s → canisterType c = s)
    ∧ (∀ c : Json, (∀ s : String, getIndex c "type" ≠ Json.str s) →
        canisterType c = "unknown") :=
  C2_one_bucket_per_entry_mod docThree csThree 3
    [("custom", 1), ("motoko", 1), ("pull", 1)] rfl rfl

/-- Claim C3: whenever the canisters field of the parsed document is absent,
null or not an object (as_object answers none on the indexed value, the index
of an absent field being null), analyze_canisters fails with the
MissingFieldError message naming the canisters field, and succeeds in no such
case. -/
theorem C3_missing_field_error (j : Json)
    (h : asObject (getIndex j "canisters") = none) :
    analyze_canisters j =
      Except.error "No 'canisters' field found in dfx.json"
    ∧ ∀ r : Nat × List (String × Nat), analyze_canisters j ≠ Except.ok r := by
  have he : analyze_canisters j =
      Except.error "No 'canisters' field found in dfx.json" := by
    simp [analyze_canisters, h]
  exact ⟨he, fun r hr => Except.noConfusion (he ▸ hr)⟩

/-- Witness for C3 at a manifest whose canisters field is an array. -/
theorem C3_witness :
    analyze_canisters docArr =
      Except.error "No 'canisters' field found in dfx.json"
    ∧ ∀ r : Nat × List (String × Nat),
        analyze_canisters docArr ≠ Except.ok r :=
  C3_missing_field_error docArr rfl

/-- Claim C4: a manifest whose canisters field is an empty object is
analyzed successfully to total 0 with an empty tally, never an error. -/
theorem C4_empty_canisters (j : Json)
    (h : getIndex j "canisters" = Json.obj []) :
    analyze_canisters j = Except.ok (0, [])
    ∧ ∀ e : String, analyze_canisters j ≠ Except.error e := by
  have hobj : asObject (getIndex j "canisters") = some [] := by
    rw [h]; rfl
  have he : analyze_canisters j = Except.ok (0, []) :=
    analyze_canisters_eq j [] hobj
  exact ⟨he, fun e hEq => Except.noConfusion (he ▸ hEq)⟩

/-- Witness for C4 at the empty-canisters manifest. -/
theorem C4_witness :
    analyze_canisters docEmpty = Except.ok (0, [])
    ∧ ∀ e : String, analyze_canisters docEmpty ≠ Except.error e :=
  C4_empty_canisters docEmpty rfl

/-- Claim C5: the doc-test manifest with three typed canisters yields total 3
and the tally custom 1, motoko 1, pull 1; the one-entry manifest whose entry
has no type field yields the tally unknown 1. -/
theorem C5_concrete_scenarios :
    analyze_canisters docThree =
      Except.ok (3, [("custom", 1), ("motoko", 1), ("pull", 1)])
    ∧ analyze_canisters docFoo = Except.ok (1, [("unknown", 1)]) :=
  ⟨rfl, rfl⟩

/-- Claim C6: the number of tally buckets never exceeds the total, and equals
it exactly when the per-entry type labels are pairwise distinct. -/
theorem C6_buckets_le_total (j : Json) (cs : List (String × Json))
    (total : Nat) (tally : List (String × Nat))
    (hc : getIndex j "canisters" = Json.obj cs)
    (h : analyze_canisters j = Except.ok (total, tally)) :
    tally.length ≤ total
    ∧ (tally.length = total ↔ (cs.map fun c => canisterType c.2).Nodup) := by
  have hobj : asObject (getIndex j "canisters") = some cs := by
    rw [hc]; rfl
  have he := analyze_canisters_eq j cs hobj
  rw [h] at he
  injection he with he2
  injection he2 with ht hT
  subst ht
  subst hT
  have hlen := tally_length_foldl (cs.map fun c => canisterType c.2)
  have hmaplen : (cs.map fun c => canisterType c.2).length = cs.length :=
    List.length_map _ _
  constructor
  · rw [hlen, ← hmaplen]
    exact List.toFinset_card_le _
  · rw [hlen, ← hmaplen]
    exact toFinset_card_eq_length_iff _

/-- Witness for C6 at the doc-test manifest. -/
theorem C6_witness :
    ([("custom", 1), ("motoko", 1), ("pull", 1)] :
        List (String × Nat)).length ≤ 3
    ∧ (([("custom", 1), ("motoko", 1), ("pull", 1)] :
          List (String × Nat)).length = 3
        ↔ (csThree.map fun c => canisterType c.2).Nodup) :=
  C6_buckets_le_total docThree csThree 3
    [("custom", 1), ("motoko", 1), ("pull", 1)] rfl rfl

/-- Claim C7: when the manifest file is read but its text is not well-formed
JSON (the external serde_json parser, passed as a function, answers none),
read_dfx_json fails with the ParseError message and returns no parsed value;
the embedding is a total function, so no crash or partial value exists. -/
theorem C7_parse_error (readFile : String → Option String)
    (from_str : String → Option Json) (path content : String)
    (hread : readFile (path ++ "/dfx.json") = some content)
    (hparse : from_str content = none) :
    read_dfx_json readFile from_str path =
      Except.error "Failed to parse dfx.json"
    ∧ ∀ v : Json, read_dfx_json readFile from_str path ≠ Except.ok v := by
  have he : read_dfx_json readFile from_str path =
      Except.error "Failed to parse dfx.json" := by
    simp [read_dfx_json, hread, hparse]
  exact ⟨he, fun v hv => Except.noConfusion (he ▸ hv)⟩

/-- Witness for C7 with a reader returning non-JSON text and a parser that
rejects it. -/
theorem C7_witness :
    read_dfx_json (fun _ => some "not json") (fun _ => none) "." =
      Except.error "Failed to parse dfx.json"
    ∧ ∀ v : Json,
        read_dfx_json (fun _ => some "not json") (fun _ => none) "." ≠
          Except.ok v :=
  C7_parse_error (fun _ => some "not json") (fun _ => none) "." "not json"
    rfl rfl

/-- Claim C8: analyze_canisters is deterministic; equal inputs give equal
results. In the embedding it is a pure function of the input value, mirroring
the Rust signature, which takes the value by shared reference and builds its
result afresh, performing no I/O or mutation. -/
theorem C8_deterministic (j1 j2 : Json) (h : j1 = j2) :
    analyze_canisters j1 = analyze_canisters j2 :=
  congrArg analyze_canisters h

/-- Witness for C8 at the doc-test manifest. -/
theorem C8_witness :
    analyze_canisters docThree = analyze_canisters docThree :=
  C8_deterministic docThree docThree rfl

/-- Claim C9: whenever the canisters field is an object the analysis returns
Ok, whatever the shape of each definition value, and a definition that is not
an object indexes to null at "type" and is therefore labelled "unknown". -/
theorem C9_tolerates_nonobject_definitions (j : Json)
    (cs : List (String × Json))
    (hc : getIndex j "canisters" = Json.obj cs) :
    (∃ r : Nat × List (String × Nat), analyze_canisters j = Except.ok r)
    ∧ ∀ c : Json, asObject c = none →
        getIndex c "type" = Json.null ∧ canisterType c = "unknown" := by
  have hobj : asObject (getIndex j "canisters") = some cs := by
    rw [hc]; rfl
  refine ⟨⟨_, analyze_canisters_eq j cs hobj⟩, ?_⟩
  intro c hc2
  have hnull : getIndex c "type" = Json.null := by
    cases c <;> first
      | rfl
      | exact absurd hc2 (by simp [asObject])
  exact ⟨hnull, by simp [canisterType, hnull, asStr]⟩

/-- Witness for C9 at a manifest whose definitions are a string, an array and
null. -/
theorem C9_witness :
    (∃ r : Nat × List (String × Nat),
        analyze_canisters docMixed = Except.ok r)
    ∧ ∀ c : Json, asObject c = none →
        getIndex c "type" = Json.null ∧ canisterType c = "unknown" :=
  C9_tolerates_nonobject_definitions docMixed csMixed rfl

/-- Claim C10: the counting logic inlined in main agrees with
analyze_canisters on every parsed value: they fail with the same error under
the same condition, and on success main computes the same total and tally,
with its per-entry printed labels given entrywise by the same labelling
function. -/
theorem C10_main_matches_analyze (j : Json) :
    (∀ e : String, mainCompute j = Except.error e ↔
        analyze_canisters j = Except.error e)
    ∧ ∀ ps : List (String × String), ∀ total : Nat,
        ∀ tally : List (String × Nat),
        mainCompute j = Except.ok (ps, total, tally) →
          analyze_canisters j = Except.ok (total, tally)
          ∧ ∀ cs : List (String × Json),
              getIndex j "canisters" = Json.obj cs →
                ps = cs.map fun c => (c.1, canisterType c.2) := by
  cases hobj : asObject (getIndex j "canisters") with
  | none =>
      have hm : mainCompute j =
          Except.error "No 'canisters' field found in dfx.json" := by
        simp [mainCompute, hobj]
      have ha : analyze_canisters j =
          Except.error "No 'canisters' field found in dfx.json" := by
        simp [analyze_canisters, hobj]
      refine ⟨fun e => ?_, fun ps total tally hok => ?_⟩
      · rw [hm, ha]
        constructor
        · intro h1
          injection h1 with h1
          rw [h1]
        · intro h1
          injection h1 with h1
          rw [h1]
      rw [hm] at hok
      exact Except.noConfusion hok
  | some cs =>
      have hm : mainCompute j =
          Except.ok (cs.map fun c => (c.1, canisterType c.2), cs.length,
            cs.foldl (fun tc c => tallyIncr tc (canisterType c.2)) []) := by
        simp only [mainCompute, hobj]
        rw [mainCompute_foldl]
        simp
      have ha := analyze_canisters_eq j cs hobj
      constructor
      · intro e
        rw [hm, ha]
        exact ⟨fun hcontra => Except.noConfusion hcontra,
          fun hcontra => Except.noConfusion hcontra⟩
      · intro ps total tally hok
        rw [hm] at hok
        injection hok with hok2
        injection hok2 with hps hrest
        injection hrest with htot htal
        subst hps
        subst htot
        subst htal
        refine ⟨?_, ?_⟩
        · rw [ha, List.foldl_map]
        · intro cs' hcs'
          have hobj2 : asObject (getIndex j "canisters") = some cs' := by
            rw [hcs']; rfl
          rw [hobj] at hobj2
          injection hobj2 with hcc
          subst hcc
          rfl

/-- Witness for C10 at the doc-test manifest. -/
theorem C10_witness :
    analyze_canisters docThree =
      Except.ok (3, [("custom", 1), ("motoko", 1), ("pull", 1)])
    ∧ ∀ cs : List (String × Json),
        getIndex docThree "canisters" = Json.obj cs →
          [("web3disk", "custom"), ("web3disk_service_backend", "motoko"),
            ("internet-identity", "pull")] =
            cs.map fun c => (c.1, canisterType c.2) :=
  (C10_main_matches_analyze docThree).2
    [("web3disk", "custom"), ("web3disk_service_backend", "motoko"),
      ("internet-identity", "pull")] 3
    [("custom", 1), ("motoko", 1), ("pull", 1)] rfl

end DfxInspector
